import Mathlib

/-!
# Verification of the rPPG finger-liveness pipeline

Shallow embedding of `finger_liveness.py` (class `VideoLivenessDetector` and the
command-line entry point).  Python floats are modelled as exact rationals `ℚ`;
frame dimensions and sample counts are `ℕ`; ROI coordinates are Python `int`s,
modelled as `ℤ`.  The external library routine `scipy.signal.welch` is kept
abstract as a function parameter of the analysis stage, so theorems quantify
over every possible spectral estimator; everything else is translated directly
from the source.
-/

set_option autoImplicit false

namespace FingerLiveness

/-- A spectral estimate: the parallel sequences `freqs, psd` returned by
`welch` (line 101 of `finger_liveness.py`). -/
structure SpectralEstimate where
  freqs : List ℚ
  psd : List ℚ
deriving Repr, DecidableEq

/-- Lower edge of the heart-rate band, `0.75` Hz (line 104). -/
def pulseBandLo : ℚ := 3 / 4

/-- Upper edge of the heart-rate band, `4.0` Hz (line 104). -/
def pulseBandHi : ℚ := 4

/-- The additive constant `1e-8` on the total power (line 106). -/
def totalPowerEps : ℚ := 1 / 100000000

/-- The constructor default `power_threshold = 0.35` (line 31). -/
def defaultPowerThreshold : ℚ := 35 / 100

/-- The constructor default `fps = 30` (line 30). -/
def defaultFps : ℕ := 30

/-- The constructor default `sample_seconds = 5.0` (line 29). -/
def defaultSampleSeconds : ℚ := 5

/-- One entry of the NumPy boolean mask `(freqs >= 0.75) & (freqs <= 4.0)`
(line 104). -/
def inBand (f : ℚ) : Bool := decide (pulseBandLo ≤ f) && decide (f ≤ pulseBandHi)

/-- NumPy boolean-mask indexing `psd[band_mask]`: keep the entries of `xs`
whose mask entry is `true`. -/
def maskSelect (xs : List ℚ) (mask : List Bool) : List ℚ :=
  ((xs.zip mask).filter (fun p => p.2)).map (fun p => p.1)

/-- Band power `band_power = psd[band_mask].sum()` with
`band_mask = (freqs >= 0.75) & (freqs <= 4.0)` (lines 104–105). -/
def bandPower (est : SpectralEstimate) : ℚ :=
  (maskSelect est.psd (est.freqs.map inBand)).sum

/-- Total power `total_power = psd.sum() + 1e-8` (line 106). -/
def totalPower (est : SpectralEstimate) : ℚ :=
  est.psd.sum + totalPowerEps

/-- Lines 104–108: the liveness decision on a spectral estimate,
`ratio = band_power / total_power; return ratio >= self.power_threshold`. -/
def livenessDecision (est : SpectralEstimate) (powerThreshold : ℚ) : Bool :=
  decide (bandPower est / totalPower est ≥ powerThreshold)

/-- Arithmetic mean `np.mean`: sum divided by length (in `ℚ`; `0` on the empty
list, which the analysis never reaches past its length guard). -/
def listMean (xs : List ℚ) : ℚ := xs.sum / xs.length

/-- A stand-in for `scipy.signal.welch`: any map from (signal, fs, nperseg)
to a spectral estimate.  Theorems about the pipeline quantify over it. -/
def WelchFn : Type := List ℚ → ℕ → ℕ → SpectralEstimate

/-- Lines 96–108 of `analyse`, the pure analysis stage run on the buffer
snapshot after capture ends:

* `if len(buffer) < self.fps * 2: return False`
* `signal = np.array(buffer) - np.mean(buffer)`
* `freqs, psd = welch(signal, fs=self.fps, nperseg=min(256, len(signal)))`
* band-power ratio decision (see `livenessDecision`). -/
def analyseBuffer (welchFn : WelchFn) (fps : ℕ) (powerThreshold : ℚ)
    (buffer : List ℚ) : Bool :=
  if buffer.length < fps * 2 then
    false
  else
    let signal := buffer.map (fun v => v - listMean buffer)
    let est := welchFn signal fps (min 256 signal.length)
    livenessDecision est powerThreshold

/-- The eviction loop of lines 82–83:
`while len(buffer) > self.sample_seconds * self.fps: buffer.popleft()`.
The cap is the Python float `sample_seconds * fps`, kept as a rational. -/
def evictOverCap (cap : ℚ) : List ℚ → List ℚ
  | [] => []
  | x :: xs =>
    if cap < ((x :: xs).length : ℚ) then evictOverCap cap xs else x :: xs

/-- Buffer update of one loop tick (lines 79–83): `buffer.append(sample)`
followed by the head-eviction loop. -/
def pushSample (cap : ℚ) (buf : List ℚ) (v : ℚ) : List ℚ :=
  evictOverCap cap (buf ++ [v])

/-- Pushing a whole sequence of samples through the sliding window in order. -/
def pushAll (cap : ℚ) (buf : List ℚ) (vs : List ℚ) : List ℚ :=
  vs.foldl (pushSample cap) buf

/-- The session buffer cap `self.sample_seconds * self.fps` (line 82). -/
def sessionCap (sampleSeconds : ℚ) (fps : ℕ) : ℚ := sampleSeconds * fps

/-- A caller-supplied ROI `(x, y, w, h)`; Python ints, so `ℤ`. -/
structure Roi where
  x : ℤ
  y : ℤ
  w : ℤ
  h : ℤ
deriving Repr, DecidableEq

/-- Truthiness test `any(self.roi)` of Python (line 53): true when some field
is non-zero. -/
def roiAny (r : Roi) : Bool :=
  decide (r.x ≠ 0) || decide (r.y ≠ 0) || decide (r.w ≠ 0) || decide (r.h ≠ 0)

/-- Method `_select_roi` (lines 52–59): return the configured ROI when any field is
non-zero, otherwise the centred square of side `min(h, w) // 3`.  The frame
attribute `shape[:2]` is `(frameH, frameW)`; all auto-path arithmetic is on
non-negative values, so the floor division of Python coincides with `ℕ`
division. -/
def selectRoi (roi : Roi) (frameH frameW : ℕ) : Roi :=
  if roiAny roi then roi
  else
    let size : ℕ := min frameH frameW / 3
    let x : ℕ := (frameW - size) / 2
    let y : ℕ := (frameH - size) / 2
    ⟨(x : ℤ), (y : ℤ), (size : ℤ), (size : ℤ)⟩

/-- Lines 61–108 of `analyse` at the level the claims need: the side effects
of the capture loop (frame reads, drawing, wall-clock stop) are abstracted
into the sequence `samples` of scalar intensity values it pushes; `camOpened`
is `cap.isOpened()`.  If the device did not open, `analyse` raises
`RuntimeError` (lines 62–64) before any verdict; otherwise the buffer is the
sliding window over the pushed samples and the verdict is `analyseBuffer`. -/
def runVideoSession (camOpened : Bool) (samples : List ℚ) (welchFn : WelchFn)
    (sampleSeconds : ℚ) (fps : ℕ) (powerThreshold : ℚ) : Except String Bool :=
  if camOpened then
    Except.ok (analyseBuffer welchFn fps powerThreshold
      (pushAll (sessionCap sampleSeconds fps) [] samples))
  else
    Except.error "Unable to open camera device"

/-- The image-mode branch of `__main__` (lines 178–183): `cv2.imread` returns
`None` for a missing/unreadable file, and the program raises
`FileNotFoundError` instead of printing a verdict; otherwise it prints
`LIVE`/`SPOOF` from `predict(img) >= threshold`.  The decoded image and the
classifier are abstracted (`α`, `predictFn`). -/
def imageMain {α : Type} (imreadResult : Option α) (predictFn : α → ℚ)
    (threshold : ℚ) : Except String String :=
  match imreadResult with
  | none => Except.error "FileNotFoundError"
  | some img =>
    Except.ok (if predictFn img ≥ threshold then "LIVE" else "SPOOF")

end FingerLiveness

namespace FingerLiveness

/-! ## Helper lemmas shared between claims -/

/-- Selecting `psd` entries through the mask `freqs.map inBand` is the same as
filtering the zipped `(freq, power)` pairs on the band predicate. -/
theorem maskSelect_map_inBand :
    ∀ (freqs psd : List ℚ),
      maskSelect psd (freqs.map inBand)
        = ((freqs.zip psd).filter (fun p => inBand p.1)).map (fun p => p.2)
  | [], psd => by simp [maskSelect]
  | f :: fs, [] => by simp [maskSelect]
  | f :: fs, p :: ps => by
    have ih := maskSelect_map_inBand fs ps
    by_cases hb : inBand f
    · simp [maskSelect, List.filter_cons, hb] at ih ⊢
      exact ih
    · simp only [Bool.not_eq_true] at hb
      simp [maskSelect, List.filter_cons, hb] at ih ⊢
      exact ih

/-- The band predicate written as a single decided conjunction. -/
theorem inBand_eq_decide (f : ℚ) :
    inBand f = decide (3 / 4 ≤ f ∧ f ≤ 4) := by
  rw [Bool.eq_iff_iff]
  simp [inBand, pulseBandLo, pulseBandHi]

/-- The automatic ROI branch, in closed form. -/
theorem selectRoi_zero (h w : ℕ) :
    selectRoi ⟨0, 0, 0, 0⟩ h w
      = ⟨((w - min h w / 3) / 2 : ℕ), ((h - min h w / 3) / 2 : ℕ),
          (min h w / 3 : ℕ), (min h w / 3 : ℕ)⟩ := by
  simp [selectRoi, roiAny]

/-! ## Claim theorems -/

/-- The sum of the power values whose paired frequency `f` satisfies
`0.75 ≤ f ≤ 4.0`, written as the claim states it. -/
def bandPowerSpec (freqs psd : List ℚ) : ℚ :=
  (((freqs.zip psd).filter (fun p => decide (3 / 4 ≤ p.1 ∧ p.1 ≤ 4))).map
    (fun p => p.2)).sum

/-- C1: for every spectral estimate and threshold, the decision is `true` iff
the sum of in-band power values (inclusive bounds `0.75` and `4.0`) divided by
the sum of all power values plus `1e-8` is at least the threshold, and the
default threshold is `0.35`. -/
theorem livenessDecision_band_ratio (est : SpectralEstimate) (t : ℚ) :
    (livenessDecision est t = true ↔
      t ≤ bandPowerSpec est.freqs est.psd / (est.psd.sum + 1 / 100000000))
    ∧ defaultPowerThreshold = 35 / 100 := by
  constructor
  · have hfilter :
        (est.freqs.zip est.psd).filter (fun p => inBand p.1)
          = (est.freqs.zip est.psd).filter
              (fun p => decide (3 / 4 ≤ p.1 ∧ p.1 ≤ 4)) :=
      List.filter_congr (fun p _ => inBand_eq_decide p.1)
    have hband : bandPower est = bandPowerSpec est.freqs est.psd := by
      unfold bandPower bandPowerSpec
      rw [maskSelect_map_inBand, hfilter]
    unfold livenessDecision totalPower totalPowerEps
    rw [hband]
    simp [ge_iff_le]
  · rfl

/-- C4: with an all-zero configured ROI the selection is the centred square of
side `min(h, w) // 3` at `((w - s) // 2, (h - s) // 2)`; for a 480×640 frame
that is the square of side 160 at `(240, 160)`. -/
theorem selectRoi_auto_centered (h w : ℕ) :
    (selectRoi ⟨0, 0, 0, 0⟩ h w
      = ⟨((w - min h w / 3) / 2 : ℕ), ((h - min h w / 3) / 2 : ℕ),
          (min h w / 3 : ℕ), (min h w / 3 : ℕ)⟩)
    ∧ selectRoi ⟨0, 0, 0, 0⟩ 480 640 = ⟨240, 160, 160, 160⟩ := by
  refine ⟨selectRoi_zero h w, ?_⟩
  rw [selectRoi_zero]
  rfl

/-- C8: a configured ROI with at least one non-zero field is returned
unchanged for every frame size, with no validation against the frame
bounds. -/
theorem selectRoi_configured_passthrough (roi : Roi) (h w : ℕ)
    (hnz : roi.x ≠ 0 ∨ roi.y ≠ 0 ∨ roi.w ≠ 0 ∨ roi.h ≠ 0) :
    selectRoi roi h w = roi := by
  have hany : roiAny roi = true := by
    unfold roiAny
    rcases hnz with h1 | h1 | h1 | h1 <;> simp [h1]
  simp [selectRoi, hany]

/-- Witness for C8 at a concrete non-zero ROI and frame. -/
theorem selectRoi_configured_passthrough_witness :
    ((7 : ℤ) ≠ 0 ∨ (0 : ℤ) ≠ 0 ∨ (0 : ℤ) ≠ 0 ∨ (0 : ℤ) ≠ 0)
    ∧ selectRoi ⟨7, 0, 0, 0⟩ 480 640 = ⟨7, 0, 0, 0⟩ :=
  ⟨Or.inl (by decide),
    selectRoi_configured_passthrough ⟨7, 0, 0, 0⟩ 480 640 (Or.inl (by decide))⟩

/-- C10: whenever `min(height, width) ≥ 3`, the auto-selected ROI is a
non-degenerate square lying entirely inside the frame. -/
theorem selectRoi_auto_within_frame (fh fw : ℕ) (hmin : 3 ≤ min fh fw) :
    0 ≤ (selectRoi ⟨0, 0, 0, 0⟩ fh fw).x
    ∧ 0 ≤ (selectRoi ⟨0, 0, 0, 0⟩ fh fw).y
    ∧ (selectRoi ⟨0, 0, 0, 0⟩ fh fw).x + (selectRoi ⟨0, 0, 0, 0⟩ fh fw).w ≤ fw
    ∧ (selectRoi ⟨0, 0, 0, 0⟩ fh fw).y + (selectRoi ⟨0, 0, 0, 0⟩ fh fw).h ≤ fh
    ∧ 0 < (selectRoi ⟨0, 0, 0, 0⟩ fh fw).w
    ∧ (selectRoi ⟨0, 0, 0, 0⟩ fh fw).w = (selectRoi ⟨0, 0, 0, 0⟩ fh fw).h := by
  rw [selectRoi_zero]
  refine ⟨?_, ?_, ?_, ?_, ?_, ?_⟩ <;> simp only <;> omega

/-- Witness for C10 at a 480×640 frame. -/
theorem selectRoi_auto_within_frame_witness :
    3 ≤ min 480 640
    ∧ (0 ≤ (selectRoi ⟨0, 0, 0, 0⟩ 480 640).x
        ∧ 0 ≤ (selectRoi ⟨0, 0, 0, 0⟩ 480 640).y
        ∧ (selectRoi ⟨0, 0, 0, 0⟩ 480 640).x + (selectRoi ⟨0, 0, 0, 0⟩ 480 640).w ≤ 640
        ∧ (selectRoi ⟨0, 0, 0, 0⟩ 480 640).y + (selectRoi ⟨0, 0, 0, 0⟩ 480 640).h ≤ 480
        ∧ 0 < (selectRoi ⟨0, 0, 0, 0⟩ 480 640).w
        ∧ (selectRoi ⟨0, 0, 0, 0⟩ 480 640).w = (selectRoi ⟨0, 0, 0, 0⟩ 480 640).h) :=
  ⟨by decide, selectRoi_auto_within_frame 480 640 (by decide)⟩

/-- C7: for a fixed spectral estimate, if the decision passes at the larger
threshold it passes at any smaller one. -/
theorem livenessDecision_threshold_monotone (est : SpectralEstimate)
    (t1 t2 : ℚ) (hle : t1 ≤ t2) (h2 : livenessDecision est t2 = true) :
    livenessDecision est t1 = true := by
  unfold livenessDecision at h2 ⊢
  exact decide_eq_true (le_trans hle (of_decide_eq_true h2))

/-- Witness for C7: a one-bin in-band estimate passing at `1/2` also passes
at `1/4`. -/
theorem livenessDecision_threshold_monotone_witness :
    (1 / 4 : ℚ) ≤ 1 / 2
    ∧ livenessDecision ⟨[1], [1]⟩ (1 / 2) = true
    ∧ livenessDecision ⟨[1], [1]⟩ (1 / 4) = true := by
  have hpass : livenessDecision ⟨[1], [1]⟩ (1 / 2) = true := by
    simp [livenessDecision, bandPower, totalPower, maskSelect, inBand,
      pulseBandLo, pulseBandHi, totalPowerEps]
    norm_num
  exact ⟨by norm_num, hpass,
    livenessDecision_threshold_monotone ⟨[1], [1]⟩ (1 / 4) (1 / 2)
      (by norm_num) hpass⟩

end FingerLiveness

namespace FingerLiveness

/-- A trivially computable spectral estimator, used to instantiate the
abstract `welch` parameter in concrete witnesses. -/
def zeroWelch : WelchFn := fun _ _ _ => ⟨[], []⟩

/-- C2: when the sliding-window buffer ends the session with fewer than
`fps * 2` samples, the session returns `Except.ok false` for every spectral
estimator (so `welch` is never consulted) and raises no error. -/
theorem insufficient_data_negative (welchFn : WelchFn) (sampleSeconds : ℚ)
    (fps : ℕ) (t : ℚ) (samples : List ℚ)
    (hshort :
      (pushAll (sessionCap sampleSeconds fps) [] samples).length < fps * 2) :
    runVideoSession true samples welchFn sampleSeconds fps t
      = Except.ok false := by
  simp [runVideoSession, analyseBuffer, hshort]

/-- Witness for C2: a session that collected no samples at the default
configuration is judged `false`. -/
theorem insufficient_data_negative_witness :
    (pushAll (sessionCap 5 30) [] []).length < 30 * 2
    ∧ runVideoSession true [] zeroWelch 5 30 (35 / 100) = Except.ok false :=
  ⟨by decide,
    insufficient_data_negative zeroWelch 5 30 (35 / 100) [] (by decide)⟩

/-- C5: past the length guard, the analysis stage hands `welch` exactly the
mean-subtracted signal, at sampling rate `fps` and with segment length
`min 256 len`, and decides on its output. -/
theorem spectral_stage_detrend_welch (welchFn : WelchFn) (fps : ℕ) (t : ℚ)
    (buffer : List ℚ) (hlong : fps * 2 ≤ buffer.length) :
    ∃ signal : List ℚ,
      signal.length = buffer.length
      ∧ (∀ i, (h1 : i < signal.length) → (h2 : i < buffer.length) →
          signal[i] = buffer[i] - buffer.sum / (buffer.length : ℚ))
      ∧ analyseBuffer welchFn fps t buffer
          = livenessDecision (welchFn signal fps (min 256 buffer.length)) t := by
  refine ⟨buffer.map (fun v => v - listMean buffer), by simp, ?_, ?_⟩
  · intro i h1 h2
    simp [listMean]
  · simp [analyseBuffer, Nat.not_lt.mpr hlong]

/-- Witness for C5 on a two-sample buffer at 1 fps. -/
theorem spectral_stage_detrend_welch_witness :
    1 * 2 ≤ ([1, 2] : List ℚ).length
    ∧ ∃ signal : List ℚ,
        signal.length = ([1, 2] : List ℚ).length
        ∧ (∀ i, (h1 : i < signal.length) →
            (h2 : i < ([1, 2] : List ℚ).length) →
            signal[i] = ([1, 2] : List ℚ)[i]
              - ([1, 2] : List ℚ).sum / (([1, 2] : List ℚ).length : ℚ))
        ∧ analyseBuffer zeroWelch 1 (35 / 100) [1, 2]
            = livenessDecision
                (zeroWelch signal 1 (min 256 ([1, 2] : List ℚ).length))
                (35 / 100) :=
  ⟨by norm_num,
    spectral_stage_detrend_welch zeroWelch 1 (35 / 100) [1, 2] (by norm_num)⟩

/-- C9: an unopened capture device makes the video session surface an error
rather than a verdict, and a missing image file makes the image mode surface
an error rather than printing LIVE or SPOOF. -/
theorem fatal_errors_surface {α : Type} (camOpened : Bool) (samples : List ℚ)
    (welchFn : WelchFn) (sampleSeconds : ℚ) (fps : ℕ) (t : ℚ)
    (imreadResult : Option α) (predictFn : α → ℚ) (pt : ℚ)
    (hcam : camOpened = false) (himg : imreadResult = none) :
    runVideoSession camOpened samples welchFn sampleSeconds fps t
        = Except.error "Unable to open camera device"
    ∧ imageMain imreadResult predictFn pt
        = Except.error "FileNotFoundError" := by
  subst hcam
  subst himg
  exact ⟨rfl, rfl⟩

/-- Witness for C9 with a closed camera and a failed image read. -/
theorem fatal_errors_surface_witness :
    (false = false)
    ∧ ((none : Option (List ℚ)) = none)
    ∧ runVideoSession false [] zeroWelch 5 30 (35 / 100)
        = Except.error "Unable to open camera device"
    ∧ imageMain (none : Option (List ℚ)) (fun _ => 0) (1 / 2)
        = Except.error "FileNotFoundError" := by
  have h := fatal_errors_surface false [] zeroWelch 5 30 (35 / 100)
    (none : Option (List ℚ)) (fun _ => 0) (1 / 2) rfl rfl
  exact ⟨rfl, rfl, h.1, h.2⟩

end FingerLiveness

namespace FingerLiveness

/-- The integer comparison hidden in the eviction guard: a natural buffer
length exceeds the rational cap iff it exceeds the truncated cap. -/
theorem cap_lt_natCast_iff (cap : ℚ) (hcap : 0 ≤ cap) (n : ℕ) :
    cap < (n : ℚ) ↔ ⌊cap⌋₊ < n :=
  (Nat.floor_lt hcap).symm

/-- The eviction loop keeps exactly the newest `⌊cap⌋₊` entries. -/
theorem evictOverCap_eq_drop (cap : ℚ) (hcap : 0 ≤ cap) :
    ∀ l : List ℚ, evictOverCap cap l = l.drop (l.length - ⌊cap⌋₊)
  | [] => by simp [evictOverCap]
  | x :: xs => by
    have ih := evictOverCap_eq_drop cap hcap xs
    by_cases h : cap < ((x :: xs).length : ℚ)
    · have hC : ⌊cap⌋₊ < (x :: xs).length := (cap_lt_natCast_iff cap hcap _).mp h
      have harith : (x :: xs).length - ⌊cap⌋₊ = (xs.length - ⌊cap⌋₊) + 1 := by
        simp only [List.length_cons] at hC ⊢
        omega
      rw [evictOverCap, if_pos h, ih, harith]
      rfl
    · have hC : ¬ ⌊cap⌋₊ < (x :: xs).length :=
        fun hc => h ((cap_lt_natCast_iff cap hcap _).mpr hc)
      have hzero : (x :: xs).length - ⌊cap⌋₊ = 0 := by omega
      rw [evictOverCap, if_neg h, hzero, List.drop_zero]

/-- Length of a buffer after eviction. -/
theorem evictOverCap_length (cap : ℚ) (hcap : 0 ≤ cap) (l : List ℚ) :
    (evictOverCap cap l).length = min l.length ⌊cap⌋₊ := by
  rw [evictOverCap_eq_drop cap hcap, List.length_drop]
  omega

/-- Folding the per-tick push over a sample sequence keeps, of everything
seen so far, exactly the newest `⌊cap⌋₊` entries. -/
theorem pushAll_eq_drop (cap : ℚ) (hcap : 0 ≤ cap) :
    ∀ (vs buf : List ℚ), buf.length ≤ ⌊cap⌋₊ →
      pushAll cap buf vs = (buf ++ vs).drop ((buf ++ vs).length - ⌊cap⌋₊)
  | [], buf, hbuf => by
    have hzero : buf.length - ⌊cap⌋₊ = 0 := by omega
    simp [pushAll, hzero]
  | v :: vs, buf, hbuf => by
    have hbuf' : (pushSample cap buf v).length ≤ ⌊cap⌋₊ := by
      simp only [pushSample, evictOverCap_length cap hcap]
      omega
    have ih := pushAll_eq_drop cap hcap vs (pushSample cap buf v) hbuf'
    have hstep : pushAll cap buf (v :: vs)
        = pushAll cap (pushSample cap buf v) vs := rfl
    have hps : pushSample cap buf v
        = (buf ++ [v]).drop ((buf ++ [v]).length - ⌊cap⌋₊) := by
      simp only [pushSample, evictOverCap_eq_drop cap hcap]
    have happ : buf ++ v :: vs = (buf ++ [v]) ++ vs := by simp
    have hk : (buf ++ [v]).length - ⌊cap⌋₊ ≤ (buf ++ [v]).length :=
      Nat.sub_le _ _
    rw [hstep, ih, hps, happ, ← List.drop_append_of_le_length hk,
      List.drop_drop]
    congr 1
    simp only [List.length_drop, List.length_append]
    omega

/-- C3: pushing `N` samples through the session window with cap
`sample_seconds * fps` (truncated when fractional) leaves at most the
truncated cap of entries, and those entries are exactly the newest
`min N C` pushed values in push order. -/
theorem sliding_window_bound (sampleSeconds : ℚ) (fps : ℕ) (vs : List ℚ)
    (hss : 0 ≤ sampleSeconds) :
    (pushAll (sessionCap sampleSeconds fps) [] vs).length
        ≤ ⌊sessionCap sampleSeconds fps⌋₊
    ∧ pushAll (sessionCap sampleSeconds fps) [] vs
        = vs.drop (vs.length - min vs.length ⌊sessionCap sampleSeconds fps⌋₊) := by
  have hcap : 0 ≤ sessionCap sampleSeconds fps :=
    mul_nonneg hss (Nat.cast_nonneg fps)
  have h := pushAll_eq_drop (sessionCap sampleSeconds fps) hcap vs []
    (by simp)
  simp only [List.nil_append] at h
  constructor
  · rw [h, List.length_drop]
    omega
  · rw [h]
    congr 1
    omega

/-- Witness for C3: a fractional cap `1/2 * 3 = 3/2` truncates to `1`, so
three pushes keep only the newest sample. -/
theorem sliding_window_bound_witness :
    (0 : ℚ) ≤ 1 / 2
    ∧ ((pushAll (sessionCap (1 / 2) 3) [] [4, 5, 6]).length
          ≤ ⌊sessionCap (1 / 2) 3⌋₊
        ∧ pushAll (sessionCap (1 / 2) 3) [] [4, 5, 6]
            = ([4, 5, 6] : List ℚ).drop
                (([4, 5, 6] : List ℚ).length
                  - min ([4, 5, 6] : List ℚ).length ⌊sessionCap (1 / 2) 3⌋₊)) :=
  ⟨by norm_num, sliding_window_bound (1 / 2) 3 [4, 5, 6] (by norm_num)⟩

end FingerLiveness

namespace FingerLiveness

/-- Subtracting the mean from an all-constant buffer yields the all-zero
signal. -/
theorem detrend_replicate (n : ℕ) (c : ℚ) :
    (List.replicate n c).map (fun v => v - listMean (List.replicate n c))
      = List.replicate n 0 := by
  cases n with
  | zero => rfl
  | succ m =>
    have hne : ((m + 1 : ℕ) : ℚ) ≠ 0 :=
      Nat.cast_ne_zero.mpr (Nat.succ_ne_zero m)
    have hmean : listMean (List.replicate (m + 1) c) = c := by
      unfold listMean
      rw [List.sum_replicate, List.length_replicate, nsmul_eq_mul]
      exact mul_div_cancel_left₀ c hne
    rw [hmean, List.map_replicate, sub_self]

/-- Every value selected through a boolean mask is a value of the masked
list. -/
theorem mem_of_mem_maskSelect {xs : List ℚ} {mask : List Bool} {a : ℚ}
    (h : a ∈ maskSelect xs mask) : a ∈ xs := by
  unfold maskSelect at h
  simp only [List.mem_map, List.mem_filter] at h
  obtain ⟨p, ⟨hmem, _⟩, rfl⟩ := h
  exact (List.of_mem_zip hmem).1

/-- C6: on an all-constant buffer of sufficient length, every spectral
estimator that maps the zero signal to an all-zero power sequence yields a
non-zero denominator (thanks to the additive `1e-8`) and the verdict
`false` at any positive threshold. -/
theorem flat_buffer_safe (welchFn : WelchFn) (fps n : ℕ) (c t : ℚ)
    (hlen : fps * 2 ≤ n) (ht : 0 < t)
    (hzero : ∀ p ∈ (welchFn (List.replicate n 0) fps (min 256 n)).psd, p = 0) :
    totalPower (welchFn (List.replicate n 0) fps (min 256 n)) ≠ 0
    ∧ analyseBuffer welchFn fps t (List.replicate n c) = false := by
  have hsum : (welchFn (List.replicate n 0) fps (min 256 n)).psd.sum = 0 :=
    List.sum_eq_zero hzero
  have htotal : totalPower (welchFn (List.replicate n 0) fps (min 256 n))
      = totalPowerEps := by
    rw [totalPower, hsum, zero_add]
  have htotne : totalPower (welchFn (List.replicate n 0) fps (min 256 n)) ≠ 0 := by
    rw [htotal]
    norm_num [totalPowerEps]
  refine ⟨htotne, ?_⟩
  have hnotshort : ¬ (List.replicate n c).length < fps * 2 := by
    rw [List.length_replicate]
    omega
  have hband : bandPower (welchFn (List.replicate n 0) fps (min 256 n)) = 0 := by
    apply List.sum_eq_zero
    intro p hp
    exact hzero p (mem_of_mem_maskSelect hp)
  unfold analyseBuffer
  rw [if_neg hnotshort]
  simp only [detrend_replicate, List.length_map, List.length_replicate]
  unfold livenessDecision
  apply decide_eq_false
  rw [hband, zero_div]
  exact not_le.mpr ht

/-- Witness for C6: a 60-sample constant buffer at 30 fps under the default
threshold, with the trivial estimator. -/
theorem flat_buffer_safe_witness :
    30 * 2 ≤ 60
    ∧ (0 : ℚ) < 35 / 100
    ∧ (∀ p ∈ (zeroWelch (List.replicate 60 0) 30 (min 256 60)).psd, p = 0)
    ∧ totalPower (zeroWelch (List.replicate 60 0) 30 (min 256 60)) ≠ 0
    ∧ analyseBuffer zeroWelch 30 (35 / 100) (List.replicate 60 7) = false := by
  have h := flat_buffer_safe zeroWelch 30 60 7 (35 / 100)
    (by norm_num) (by norm_num) (by simp [zeroWelch])
  exact ⟨by norm_num, by norm_num, by simp [zeroWelch], h.1, h.2⟩

end FingerLiveness
